import Mathlib

/-!
Verification development for the web-scraper service in `src/main.py`.

The Python module is shallowly embedded here:

* `Position`, `Item`, `Metadata`, `Stats` model the dynamically shaped
  records produced by the DOM extraction script (`page.evaluate`, lines
  271-511 of `main.py`).
* `generate_markdown` models the Python function of the same name
  (lines 63-180), with `pyJoin` modelling `str.join`.
* `sortItems` models the stable `results.sort(comparator)` call of the
  extraction script (lines 475-480).  Whenever the comparator is a
  consistent comparison function on the input, ECMAScript's stability
  requirement determines the output uniquely and `sortItems` computes it;
  on comparator-inconsistent inputs the standard leaves the order
  implementation-defined, so nothing is claimed about `sortItems`' output
  there.
* `mkStats` models the `stats` object computed at lines 500-508.
* `scrape_page` and `scrape_as_markdown` model the two endpoints
  (lines 183-562 and 564-591).  Everything the browser engine does is a
  parameter (`World`): navigation outcome, screenshot bytes, the raw
  (classified, not yet sorted) walk results of the extraction script and
  the page metadata, plus the wall-clock readings.
-/

namespace Scraper

/-- Page coordinates of an extracted element, `getElementPosition`
(lines 292-298): `top`/`left` of the bounding rectangle, scroll adjusted. -/
structure Position where
  top : Int
  left : Int
deriving DecidableEq, Repr

/-- One extracted content record.  The extraction script builds untyped
objects tagged by their `type` field (lines 314-467); each tag becomes a
constructor carrying exactly the fields the script stores.  The `alt` field
of an image is an `Option` so that the renderer's `item.get('alt', 'Image')`
(a default that fires only when the key is absent) can be modelled; the
extractor itself always materialises the key (line 385). -/
inductive Item where
  | heading (level : String) (text : String) (position : Position)
  | paragraph (text : String) (position : Position)
  | text (text : String) (tag : String) (position : Position)
  | link (text : String) (href : String) (position : Position)
  | anchor_link (text : String) (href : String) (anchor_text : String) (position : Position)
  | image (src : String) (alt : Option String) (position : Position)
  | unordered_list (items : List String) (position : Position)
  | ordered_list (items : List String) (position : Position)
  | table (rows : List (List String)) (position : Position)
  | blockquote (text : String) (position : Position)
  | code (text : String) (language : String) (position : Position)
  | button (text : String) (position : Position)
deriving DecidableEq, Repr

/-- The JavaScript `type` tag of an item (the string stored in the
`type` field by the extraction script). -/
def Item.type : Item → String
  | .heading .. => "heading"
  | .paragraph .. => "paragraph"
  | .text .. => "text"
  | .link .. => "link"
  | .anchor_link .. => "anchor_link"
  | .image .. => "image"
  | .unordered_list .. => "unordered_list"
  | .ordered_list .. => "ordered_list"
  | .table .. => "table"
  | .blockquote .. => "blockquote"
  | .code .. => "code"
  | .button .. => "button"

/-- The `position` field of an item. -/
def Item.position : Item → Position
  | .heading _ _ p => p
  | .paragraph _ p => p
  | .text _ _ p => p
  | .link _ _ p => p
  | .anchor_link _ _ _ p => p
  | .image _ _ p => p
  | .unordered_list _ p => p
  | .ordered_list _ p => p
  | .table _ p => p
  | .blockquote _ p => p
  | .code _ _ p => p
  | .button _ p => p

/-- The `href` field of an item, present exactly on the two link variants
(`item['href']` at lines 523 and 525 is only evaluated for those). -/
def Item.href? : Item → Option String
  | .link _ h _ => some h
  | .anchor_link _ h _ _ => some h
  | _ => none

/-- The `src` field of an item, present exactly on images. -/
def Item.src? : Item → Option String
  | .image s _ _ => some s
  | _ => none

/-- Page metadata, lines 486-493: each field read from the document with
an empty-string default. -/
structure Metadata where
  title : String
  description : String
  keywords : String
  author : String
  canonical : String
  language : String
deriving DecidableEq, Repr

/-- Metadata with every field empty. -/
def emptyMetadata : Metadata := ⟨"", "", "", "", "", ""⟩

/-- Python `sep.join(lines)`: the elements interleaved with the separator,
empty output for an empty list. -/
def pyJoin (sep : String) : List String → String
  | [] => ""
  | [a] => a
  | a :: b :: t => a ++ sep ++ pyJoin sep (b :: t)

/-- JavaScript `a || b` on strings: `b` when `a` is falsy (empty). -/
def jsOr (a b : String) : String :=
  if a = "" then b else a

/-- Whether a string contains a character (`c in s` in Python,
`s.includes(c)` in JavaScript). -/
def pyContains (s : String) (c : Char) : Bool :=
  s.toList.contains c

/-- Split a character list on every character satisfying the predicate,
keeping empty segments; the accumulator carries the current segment in
reverse. -/
def splitCharsAux (p : Char → Bool) : List Char → List Char → List (List Char)
  | [], acc => [acc.reverse]
  | c :: cs, acc =>
      if p c then acc.reverse :: splitCharsAux p cs []
      else splitCharsAux p cs (c :: acc)

/-- Split a string on every character satisfying the predicate, keeping
empty segments — the common semantics of Python's `s.split('#')` and
JavaScript's `s.split('#')`. -/
def pySplit (s : String) (p : Char → Bool) : List String :=
  (splitCharsAux p s.toList []).map String.mk

/-- Python `s.split()` with no argument: split on whitespace runs,
discarding empty pieces. -/
def pySplitWs (s : String) : List String :=
  (pySplit s (fun c => c.isWhitespace)).filter (fun p => p ≠ "")

/-- Python `href.split('#')[-1] if '#' in href else ''` (lines 104 and 164):
the part after the last `#`, or the empty string when there is none. -/
def lastAfterHash (href : String) : String :=
  if pyContains href '#' then ((pySplit href (fun c => c == '#')).getLast?).getD "" else ""

/-- Heading depth, line 84: `int(level[1]) if level.startswith('h') else 1`.
The extractor only produces levels `h1`..`h6`; on those this is the digit
after the `h`. -/
def levelNum (level : String) : Nat :=
  match level.toList with
  | 'h' :: c :: _ => c.toNat - 48
  | _ => 1

/-- First whitespace-delimited token of the recorded language string,
line 142: `language.split()[0] if item.get('language') else ''`. -/
def codeLanguageTag (language : String) : String :=
  if language ≠ "" then (pySplitWs language).headD "" else ""

/-- Metadata header lines of the markdown document (lines 68-75): title as
an H1, description in italics, author as a bold line, each only when
non-empty (Python truthiness). -/
def metaLines (m : Metadata) : List String :=
  (if m.title ≠ "" then ["# " ++ m.title ++ "\n"] else []) ++
  (if m.description ≠ "" then ["*" ++ m.description ++ "*\n"] else []) ++
  (if m.author ≠ "" then ["**Author:** " ++ m.author ++ "\n"] else [])

/-- Lines appended for one content item by the body loop of
`generate_markdown` (lines 79-152). -/
def itemLines : Item → List String
  | .heading level text _ =>
      [String.mk (List.replicate (levelNum level) '#') ++ " " ++ text ++ "\n"]
  | .paragraph text _ => [text ++ "\n"]
  | .text text _ _ =>
      if 20 < text.length then [text ++ "\n"] else []
  | .link text href _ => ["[" ++ text ++ "](" ++ href ++ ")"]
  | .anchor_link text href _ _ =>
      ["[" ++ text ++ "](#" ++ lastAfterHash href ++ ") *(anchor link)*"]
  | .image src alt _ => ["![" ++ alt.getD "Image" ++ "](" ++ src ++ ")"]
  | .unordered_list items _ => items.map (fun s => "- " ++ s) ++ [""]
  | .ordered_list items _ =>
      (items.enum.map (fun p => toString (p.1 + 1) ++ ". " ++ p.2)) ++ [""]
  | .table rows _ =>
      match rows with
      | [] => []
      | r0 :: rest =>
          ["| " ++ pyJoin " | " r0 ++ " |",
           "| " ++ pyJoin " | " (List.replicate r0.length "---") ++ " |"] ++
          rest.map (fun r => "| " ++ pyJoin " | " r ++ " |") ++ [""]
  | .blockquote text _ => ["> " ++ text ++ "\n"]
  | .code text language _ =>
      if pyContains text '\n' then
        ["```" ++ codeLanguageTag language, text, "```\n"]
      else
        ["`" ++ text ++ "`"]
  | .button text _ => ["**[" ++ text ++ "]** *(button)*"]

/-- The trailing "Links Found" section (lines 154-179): an entry per
`link` item, then one per `anchor_link` item, the whole section omitted
when both lists are empty. -/
def linksSection (content : List Item) : List String :=
  let all_links := content.filterMap (fun i =>
    match i with
    | .link t h _ => some ("- [" ++ t ++ "](" ++ h ++ ")")
    | _ => none)
  let anchors := content.filterMap (fun i =>
    match i with
    | .anchor_link t h _ _ => some ("- [" ++ t ++ "](#" ++ lastAfterHash h ++ ")")
    | _ => none)
  if all_links ≠ [] ∨ anchors ≠ [] then
    ["\n---\n", "## Links Found\n"] ++
    (if all_links ≠ [] then ["### External Links"] ++ all_links ++ [""] else []) ++
    (if anchors ≠ [] then ["### Anchor Links"] ++ anchors else [])
  else []

/-- All lines accumulated in `markdown_lines` by `generate_markdown`
(lines 65-179): metadata header, the unconditional horizontal rule of
line 77, one block per content item, then the links section. -/
def markdownLines (content : List Item) (m : Metadata) : List String :=
  metaLines m ++ ["---\n"] ++ content.flatMap itemLines ++ linksSection content

/-- The Python `generate_markdown` (lines 63-180): the accumulated lines
joined with a newline (line 180). -/
def generate_markdown (content : List Item) (m : Metadata) : String :=
  pyJoin "\n" (markdownLines content m)

/-- The position comparator of the extraction script (lines 475-480):
items whose vertical positions differ by less than 10 units compare by
horizontal position, all others by vertical position. -/
def cmpItems (a b : Item) : Int :=
  if abs (a.position.top - b.position.top) < 10 then
    a.position.left - b.position.left
  else
    a.position.top - b.position.top

/-- Insert an element into an already processed list, placing it before the
first element that compares strictly greater; over a left fold this keeps
elements that compare equal in their original order. -/
def insertItem (x : Item) : List Item → List Item
  | [] => [x]
  | y :: ys => if cmpItems x y < 0 then x :: y :: ys else y :: insertItem x ys

/-- The `results.sort(comparator)` call (line 475), modelled as a stable
insertion sort by `cmpItems`.  ECMAScript pins the result down exactly when
the comparator is a consistent comparison function on the input: the sort
must then be stable, and a stable sort by a consistent comparator is
unique, so every conforming engine — V8's TimSort included — returns the
output of this definition.  When the comparator is inconsistent on the
input (it is not transitive near band boundaries), ECMAScript leaves the
order implementation-defined and this definition is only one conforming
stable choice; theorems about inconsistent inputs are therefore stated
only through comparator facts and ECMAScript-mandated cases, never through
this definition's output on such inputs. -/
def sortItems (l : List Item) : List Item :=
  l.foldl (fun acc x => insertItem x acc) []

/-- The `stats` record of the extraction script's return value
(lines 500-508). -/
structure Stats where
  total_elements : Nat
  headings : Nat
  paragraphs : Nat
  links : Nat
  anchor_links : Nat
  images : Nat
  tables : Nat
deriving DecidableEq, Repr

/-- The stats computation (lines 500-508): the length of the content list
and, per kind, the length of the content list filtered by `type` tag. -/
def mkStats (content : List Item) : Stats :=
  ⟨content.length,
   (content.filter (fun i => i.type == "heading")).length,
   (content.filter (fun i => i.type == "paragraph")).length,
   (content.filter (fun i => i.type == "link")).length,
   (content.filter (fun i => i.type == "anchor_link")).length,
   (content.filter (fun i => i.type == "image")).length,
   (content.filter (fun i => i.type == "table")).length⟩

/-- Whether an item is a `heading` record. -/
def Item.isHeading : Item → Bool
  | .heading .. => true
  | _ => false

/-- Whether an item is a `paragraph` record. -/
def Item.isParagraph : Item → Bool
  | .paragraph .. => true
  | _ => false

/-- Whether an item is a `link` record. -/
def Item.isLink : Item → Bool
  | .link .. => true
  | _ => false

/-- Whether an item is an `anchor_link` record. -/
def Item.isAnchorLink : Item → Bool
  | .anchor_link .. => true
  | _ => false

/-- Whether an item is an `image` record. -/
def Item.isImage : Item → Bool
  | .image .. => true
  | _ => false

/-- Whether an item is a `table` record. -/
def Item.isTable : Item → Bool
  | .table .. => true
  | _ => false

/-- JavaScript `href.split('#')[1] || ''` (line 364): the piece between the
first `#` and the next one, empty when absent. -/
def splitHashSecond (href : String) : String :=
  jsOr ((pySplit href (fun c => c == '#')).getD 1 "") ""

/-- The link branch of the extraction script (lines 359-374): a visible
`<a>` with non-empty text and href becomes an `anchor_link` record when the
href contains `#`, otherwise a `link` record. -/
def classifyLink (text href : String) (p : Position) : Option Item :=
  if text ≠ "" && href ≠ "" then
    some (if pyContains href '#' then
            Item.anchor_link text href (splitHashSecond href) p
          else
            Item.link text href p)
  else none

/-- The image branch of the extraction script (lines 378-390): a visible
`<img>` with a non-empty `src` becomes an `image` record whose `alt` key is
always materialised (`alt: alt || ""`). -/
def mkImage (src alt : String) (p : Position) : Option Item :=
  if src ≠ "" then some (Item.image src (some (jsOr alt "")) p) else none

/-- Classification invariant guaranteed by the extractor's link branch
(line 363, `isAnchorLink = href.includes('#')`): a `link` record's href
never contains `#`, an `anchor_link` record's href always does. -/
def classifiedOK : Item → Bool
  | .link _ h _ => !(pyContains h '#')
  | .anchor_link _ h _ _ => pyContains h '#'
  | _ => true

/-- The derived `links` list of the response (line 523): the `href` of
every item whose type is `link` or `anchor_link`, in content order. -/
def links (content : List Item) : List String :=
  content.filterMap (fun i =>
    if i.type = "link" ∨ i.type = "anchor_link" then i.href? else none)

/-- The derived `anchor_links` list of the response (line 525): the `href`
of every `anchor_link` item, in content order. -/
def anchor_links (content : List Item) : List String :=
  content.filterMap (fun i => if i.type = "anchor_link" then i.href? else none)

/-- The derived `images` list of the response (line 524): the `src` of
every `image` item, in content order. -/
def images (content : List Item) : List String :=
  content.filterMap (fun i => if i.type = "image" then i.src? else none)

/-- Split a character list at the first colon, when there is one. -/
def splitOnColon : List Char → Option (List Char × List Char)
  | [] => none
  | c :: cs =>
      if c = ':' then some ([], cs)
      else match splitOnColon cs with
           | some (a, b) => some (c :: a, b)
           | none => none

/-- Whether a character list is a syntactically valid URL scheme
(a letter followed by letters, digits, `+`, `-` or `.`), as recognised by
`urllib.parse.urlparse`. -/
def isSchemeChars (s : List Char) : Bool :=
  match s with
  | [] => false
  | c :: cs => c.isAlpha && cs.all (fun d => d.isAlpha || d.isDigit || d = '+' || d = '-' || d = '.')

/-- The netloc `urlparse` reads after the scheme: present only when the
remainder starts with `//`, extending to the next `/`, `?` or `#`. -/
def parseNetloc (rest : List Char) : List Char :=
  match rest with
  | '/' :: '/' :: r => r.takeWhile (fun c => c ≠ '/' && c ≠ '?' && c ≠ '#')
  | _ => []

/-- The Python `is_valid_url` (lines 55-61): `urlparse` the string and
require both a scheme and a netloc. -/
def is_valid_url (url : String) : Bool :=
  let parts :=
    match splitOnColon url.toList with
    | some (s, r) => if isSchemeChars s then (s, r) else (([] : List Char), url.toList)
    | none => (([] : List Char), url.toList)
  parts.1 ≠ [] && parseNetloc parts.2 ≠ []

/-- The base64 alphabet of RFC 4648. -/
def b64Alphabet : List Char :=
  ("ABCDEFGHIJKLMNOPQRSTUVWXYZabcdefghijklmnopqrstuvwxyz0123456789+/").toList

/-- Character at an index of the base64 alphabet. -/
def b64Char (n : Nat) : Char := b64Alphabet.getD n 'A'

/-- Base64 encoding of a byte list, three bytes to four characters with
`=` padding. -/
def b64encodeChars : List Nat → List Char
  | [] => []
  | [a] => [b64Char (a / 4 % 64), b64Char (a % 4 * 16), '=', '=']
  | [a, b] => [b64Char (a / 4 % 64), b64Char (a % 4 * 16 + b / 16), b64Char (b % 16 * 4), '=']
  | a :: b :: c :: rest =>
      [b64Char (a / 4 % 64), b64Char (a % 4 * 16 + b / 16),
       b64Char (b % 16 * 4 + c / 64), b64Char (c % 64)] ++ b64encodeChars rest

/-- `base64.b64encode(bytes).decode("utf-8")` (line 261 / 264). -/
def b64encode (bytes : List Nat) : String := String.mk (b64encodeChars bytes)

/-- A FastAPI `HTTPException`: status code plus detail message. -/
structure HTTPExc where
  status_code : Int
  detail : String
deriving DecidableEq, Repr

/-- An exception escaping a browser call, as the `except` clauses of
`scrape_page` distinguish them: `asyncio.TimeoutError`, FastAPI's own
`HTTPException` (a subclass of `Exception`), or any other exception
carrying its message. -/
inductive PyExc where
  | timeout
  | http (e : HTTPExc)
  | other (msg : String)
deriving DecidableEq, Repr

/-- Python `str(e)` for the exceptions of `PyExc`:
`str(HTTPException(c, d))` is `"{c}: {d}"`, `str(asyncio.TimeoutError())`
is empty. -/
def pyStr : PyExc → String
  | .timeout => ""
  | .http e => toString e.status_code ++ ": " ++ e.detail
  | .other msg => msg

/-- A navigation response as `page.goto` returns it: HTTP status and
status text. -/
structure NavResp where
  status : Int
  status_text : String
deriving DecidableEq, Repr

deriving instance DecidableEq for Except

/-- Everything the browser engine and the wall clock contribute to one
request, supplied as data: whether the shared browser and the fresh page
could be obtained, the outcome of `page.goto` (`none` models a null
response), the screenshot bytes for the full-page and the viewport call,
what the extraction script's DOM walk produces (the classified but not yet
sorted records, and the page metadata) or the message of the exception the
evaluation raised, and the two clock readings (elapsed seconds, response
timestamp). -/
structure World where
  browser : Except String Unit
  newPage : Except String Unit
  goto : Except PyExc (Option NavResp)
  settleOk : Bool
  screenshotFull : Except String (List Nat)
  screenshotViewport : Except String (List Nat)
  evaluate : Except String (List Item × Metadata)
  elapsed : Int
  now : Int
deriving DecidableEq, Repr

/-- The navigation stage (lines 224-242): the body may raise an
`HTTPException` for a null response (400) or an error status (the status
itself); the stage's own `except` clauses then translate a timeout to 408
and every other exception — `HTTPException` included, since it is an
`Exception` subclass — to a 500 with the exception's string. -/
def navResult (goto : Except PyExc (Option NavResp)) (timeout : Int) : Except HTTPExc Unit :=
  let inner : Except PyExc Unit :=
    match goto with
    | .error e => .error e
    | .ok none => .error (.http ⟨400, "Failed to load the page - no response received"⟩)
    | .ok (some r) =>
        if r.status ≥ 400 then
          .error (.http ⟨r.status, "HTTP " ++ toString r.status ++ ": " ++ r.status_text⟩)
        else .ok ()
  match inner with
  | .ok () => .ok ()
  | .error .timeout => .error ⟨408, "Page load timeout after " ++ toString timeout ++ " seconds"⟩
  | .error e => .error ⟨500, "Navigation failed: " ++ pyStr e⟩

/-- The success payload of `/scrape` (lines 532-545). -/
structure ScrapeOk where
  success : Bool
  url : String
  processing_time_seconds : Int
  metadata : Metadata
  statistics : Stats
  visible_content : List Item
  markdown_content : String
  links : List String
  anchor_links : List String
  images : List String
  screenshot_base64 : String
  timestamp : Int
deriving DecidableEq, Repr

/-- The `/scrape` endpoint (lines 183-562): validation in source order,
then page acquisition, navigation (with its buggy self-catching handler),
best-effort settle (no observable effect), screenshot (full page or
viewport according to the flag, empty string on failure), evaluation of the
extraction script (sort and stats applied to the walk results), and the
assembly of the response record. -/
def scrape_page (url : String) (timeout wait_time : Int) (full_screenshot : Bool)
    (w : World) : Except HTTPExc ScrapeOk :=
  if url = "" then .error ⟨400, "URL is required"⟩
  else if is_valid_url url = false then .error ⟨400, "Invalid URL format"⟩
  else if timeout < 5 ∨ timeout > 120 then
    .error ⟨400, "Timeout must be between 5 and 120 seconds"⟩
  else
    match w.browser with
    | .error e => .error ⟨500, "Unexpected error: " ++ e⟩
    | .ok () =>
    match w.newPage with
    | .error _ => .error ⟨500, "Failed to initialize browser page"⟩
    | .ok () =>
    match navResult w.goto timeout with
    | .error e => .error e
    | .ok () =>
      let screenshot_base64 :=
        match (if full_screenshot then w.screenshotFull else w.screenshotViewport) with
        | .ok bytes => b64encode bytes
        | .error _ => ""
      match w.evaluate with
      | .error e => .error ⟨500, "Content extraction failed: " ++ e⟩
      | .ok (raw, meta) =>
          let content := sortItems raw
          .ok ⟨true, url, w.elapsed, meta, mkStats content, content,
               generate_markdown content meta, links content, anchor_links content,
               images content, screenshot_base64, w.now⟩

/-- The success payload of `/markdown` (lines 578-584). -/
structure MarkdownOk where
  success : Bool
  url : String
  markdown : String
  word_count : Nat
  processing_time : Int
deriving DecidableEq, Repr

/-- The `/markdown` endpoint (lines 564-591): call `scrape_page` with
`wait_time=3` and `full_screenshot=False`, and on success repackage the
markdown, its whitespace word count and the processing time; an
`HTTPException` from the delegate is re-raised unchanged. -/
def scrape_as_markdown (url : String) (timeout : Int) (include_images : Bool)
    (w : World) : Except HTTPExc MarkdownOk :=
  match scrape_page url timeout 3 false w with
  | .ok r =>
      if r.success then
        .ok ⟨true, url, r.markdown_content, (pySplitWs r.markdown_content).length,
             r.processing_time_seconds⟩
      else .error ⟨500, "Failed to scrape page"⟩
  | .error e => .error e

/-- A member of the joined list is no longer than the joined string. -/
theorem length_le_pyJoin (sep x : String) :
    ∀ l : List String, x ∈ l → x.length ≤ (pyJoin sep l).length := by
  intro l
  induction l with
  | nil => intro h; cases h
  | cons a t ih =>
      cases t with
      | nil =>
          intro h
          rcases List.mem_singleton.mp h with rfl
          exact le_of_eq rfl
      | cons b t2 =>
          intro h
          rcases List.mem_cons.mp h with rfl | hm
          · simp only [pyJoin, String.length_append]
            omega
          · have := ih hm
            simp only [pyJoin, String.length_append]
            omega

/-- JavaScript `a || ''` is just `a` for a string `a`. -/
theorem jsOr_empty (a : String) : jsOr a "" = a := by
  unfold jsOr
  split
  · simp_all
  · rfl

/-- C4 (amended): the Markdown renderer emits the line of a generic `text`
item exactly when the text is strictly longer than 20 characters (the
source test is `len(text) > 20`, so a 20-character text is suppressed). -/
theorem text_rendered_iff_longer_than_20 (s tag : String) (p : Position) :
    ((s ++ "\n") ∈ itemLines (Item.text s tag p)) ↔ 20 < s.length := by
  by_cases h : 20 < s.length <;> simp [itemLines, h]

/-- C4 counterexample: a generic `text` item of length exactly 20 is
suppressed — it contributes no line, and rendering it alone with empty
metadata yields just the horizontal rule, so its text does not appear. -/
theorem text_of_length_20_suppressed :
    itemLines (Item.text "aaaaaaaaaaaaaaaaaaaa" "div" ⟨0, 0⟩) = [] ∧
    ("aaaaaaaaaaaaaaaaaaaa").length = 20 ∧
    generate_markdown [Item.text "aaaaaaaaaaaaaaaaaaaa" "div" ⟨0, 0⟩] emptyMetadata = "---\n" :=
  ⟨rfl, rfl, rfl⟩

/-- C5 (amended): the renderer uses an item's own `alt` text verbatim —
an extractor-produced image always carries an `alt` key (empty string when
the DOM alt is empty), so an empty alt renders as `![](src)`; the
`"Image"` default of `item.get('alt', 'Image')` fires only when the `alt`
key is absent altogether. -/
theorem image_alt_rendering (src alt : String) (p : Position) :
    itemLines (Item.image src (some alt) p) = ["![" ++ alt ++ "](" ++ src ++ ")"] ∧
    itemLines (Item.image src none p) = ["![Image](" ++ src ++ ")"] ∧
    mkImage src alt p =
      (if src = "" then none else some (Item.image src (some alt) p)) := by
  refine ⟨rfl, rfl, ?_⟩
  unfold mkImage
  rw [jsOr_empty]
  split
  · simp_all
  · simp_all

/-- C5 counterexample: the extractor materialises an empty `alt`, and the
renderer then produces `![](pic.png)`, not `![Image](pic.png)`. -/
theorem image_empty_alt_not_defaulted :
    mkImage "pic.png" "" ⟨0, 0⟩ = some (Item.image "pic.png" (some "") ⟨0, 0⟩) ∧
    itemLines (Item.image "pic.png" (some "") ⟨0, 0⟩) = ["![](pic.png)"] ∧
    ("![](pic.png)" : String) ≠ "![Image](pic.png)" :=
  ⟨rfl, rfl, by decide⟩

/-- C6: `generate_markdown` is a pure function of the content list and the
metadata — identical inputs give identical output. -/
theorem generate_markdown_deterministic (c c' : List Item) (m m' : Metadata)
    (hc : c = c') (hm : m = m') :
    generate_markdown c m = generate_markdown c' m' := by rw [hc, hm]

/-- Witness for the determinism theorem at a concrete input. -/
theorem generate_markdown_deterministic_witness :
    generate_markdown [Item.paragraph "Hello" ⟨0, 0⟩] emptyMetadata =
      generate_markdown [Item.paragraph "Hello" ⟨0, 0⟩] emptyMetadata :=
  generate_markdown_deterministic [Item.paragraph "Hello" ⟨0, 0⟩]
    [Item.paragraph "Hello" ⟨0, 0⟩] emptyMetadata emptyMetadata rfl rfl

/-- C7: the stats record is a view of the content list — `total_elements`
is its length and every per-kind counter equals the number of items of
that variant. -/
theorem stats_counts_are_view (content : List Item) :
    (mkStats content).total_elements = content.length ∧
    (mkStats content).headings = content.countP Item.isHeading ∧
    (mkStats content).paragraphs = content.countP Item.isParagraph ∧
    (mkStats content).links = content.countP Item.isLink ∧
    (mkStats content).anchor_links = content.countP Item.isAnchorLink ∧
    (mkStats content).images = content.countP Item.isImage ∧
    (mkStats content).tables = content.countP Item.isTable := by
  refine ⟨rfl, ?_, ?_, ?_, ?_, ?_, ?_⟩ <;>
    · rw [List.countP_eq_length_filter]
      exact congrArg List.length (List.filter_congr (fun i _ => by cases i <;> rfl))

/-- Characterisation of the guard used by `anchor_links`: it yields a href
exactly for `anchor_link` records. -/
theorem anchorGuard_eq_some (i : Item) (x : String) :
    ((if i.type = "anchor_link" then i.href? else none) = some x) ↔
    ∃ t a p, i = Item.anchor_link t x a p := by
  cases i <;>
    simp [Item.type, Item.href?, show ("link" : String) ≠ "anchor_link" from by decide]

/-- Characterisation of the guard used by `links`: it yields a href exactly
for `link` and `anchor_link` records. -/
theorem linkGuard_eq_some (i : Item) (x : String) :
    ((if i.type = "link" ∨ i.type = "anchor_link" then i.href? else none) = some x) ↔
    (∃ t p, i = Item.link t x p) ∨ ∃ t a p, i = Item.anchor_link t x a p := by
  cases i <;> simp [Item.type, Item.href?]

/-- C1 (amended): the response's `links` list includes the hrefs of both
`link` and `anchor_link` items, so every element of `anchor_links` also
occurs in `links` (the two lists are not disjoint); for extractor-classified
content every element of `anchor_links` contains a `#`, and hrefs of `link`
items never do. -/
theorem anchor_links_subset_links (content : List Item)
    (hwf : ∀ i ∈ content, classifiedOK i = true) :
    (∀ x ∈ anchor_links content, x ∈ links content) ∧
    (∀ x ∈ anchor_links content, pyContains x '#' = true) ∧
    (∀ t h p, Item.link t h p ∈ content → pyContains h '#' = false) := by
  refine ⟨?_, ?_, ?_⟩
  · intro x hx
    rw [anchor_links, List.mem_filterMap] at hx
    obtain ⟨i, hi, hfi⟩ := hx
    rw [links, List.mem_filterMap]
    refine ⟨i, hi, ?_⟩
    rw [linkGuard_eq_some]
    exact Or.inr ((anchorGuard_eq_some i x).mp hfi)
  · intro x hx
    rw [anchor_links, List.mem_filterMap] at hx
    obtain ⟨i, hi, hfi⟩ := hx
    obtain ⟨t, a, p, rfl⟩ := (anchorGuard_eq_some i x).mp hfi
    exact hwf _ hi
  · intro t h p hmem
    have := hwf _ hmem
    simpa [classifiedOK] using this

/-- Witness for the amended C1 theorem on a concrete extractor-shaped
content list. -/
theorem anchor_links_subset_links_witness :
    (∀ i ∈ [Item.link "Home" "https://x.com/" ⟨0, 0⟩,
            Item.anchor_link "Jump" "https://x.com/a#sec1" "sec1" ⟨5, 0⟩], classifiedOK i = true) ∧
    ((∀ x ∈ anchor_links [Item.link "Home" "https://x.com/" ⟨0, 0⟩,
            Item.anchor_link "Jump" "https://x.com/a#sec1" "sec1" ⟨5, 0⟩],
        x ∈ links [Item.link "Home" "https://x.com/" ⟨0, 0⟩,
            Item.anchor_link "Jump" "https://x.com/a#sec1" "sec1" ⟨5, 0⟩]) ∧
     (∀ x ∈ anchor_links [Item.link "Home" "https://x.com/" ⟨0, 0⟩,
            Item.anchor_link "Jump" "https://x.com/a#sec1" "sec1" ⟨5, 0⟩],
        pyContains x '#' = true) ∧
     (∀ t h p, Item.link t h p ∈ [Item.link "Home" "https://x.com/" ⟨0, 0⟩,
            Item.anchor_link "Jump" "https://x.com/a#sec1" "sec1" ⟨5, 0⟩] →
        pyContains h '#' = false)) :=
  ⟨by decide, anchor_links_subset_links _ (by decide)⟩

/-- C1 counterexample: a single `anchor_link` item — produced exactly so by
the extractor's link branch — yields `links` and `anchor_links` that share
the same href, so the two lists are not disjoint, and an element of
`links` does contain a `#` fragment marker. -/
theorem links_and_anchor_links_overlap :
    classifyLink "Jump" "https://x.com/a#sec1" ⟨0, 0⟩ =
      some (Item.anchor_link "Jump" "https://x.com/a#sec1" "sec1" ⟨0, 0⟩) ∧
    links [Item.anchor_link "Jump" "https://x.com/a#sec1" "sec1" ⟨0, 0⟩] =
      ["https://x.com/a#sec1"] ∧
    anchor_links [Item.anchor_link "Jump" "https://x.com/a#sec1" "sec1" ⟨0, 0⟩] =
      ["https://x.com/a#sec1"] ∧
    pyContains "https://x.com/a#sec1" '#' = true := by
  refine ⟨by decide, rfl, rfl, by decide⟩

/-- The comparator is antisymmetric: swapping the arguments negates it. -/
theorem cmpItems_antisymm (a b : Item) : cmpItems b a = -cmpItems a b := by
  by_cases h : abs (a.position.top - b.position.top) < 10
  · rw [cmpItems, cmpItems, if_pos h, if_pos (by rwa [abs_sub_comm])]
    ring
  · rw [cmpItems, cmpItems, if_neg h, if_neg (by rwa [abs_sub_comm])]
    ring

/-- Inserting either leaves the head in place or puts the new element in
front. -/
theorem insertItem_head? (x : Item) (l : List Item) :
    (insertItem x l).head? = some x ∨ (insertItem x l).head? = l.head? := by
  cases l with
  | nil => exact Or.inl rfl
  | cons y ys =>
      by_cases h : cmpItems x y < 0
      · simp only [insertItem, if_pos h]
        exact Or.inl rfl
      · simp only [insertItem, if_neg h]
        exact Or.inr rfl

/-- Insertion preserves the adjacent-pairs invariant of the comparator. -/
theorem chain'_insertItem (x : Item) (l : List Item)
    (h : l.Chain' (fun a b => cmpItems a b ≤ 0)) :
    (insertItem x l).Chain' (fun a b => cmpItems a b ≤ 0) := by
  induction l with
  | nil => simp [insertItem]
  | cons y ys ih =>
      by_cases hxy : cmpItems x y < 0
      · simp only [insertItem, if_pos hxy]
        exact List.chain'_cons.mpr ⟨le_of_lt hxy, h⟩
      · simp only [insertItem, if_neg hxy]
        rw [List.chain'_cons'] at h
        obtain ⟨hy, hys⟩ := h
        refine List.chain'_cons'.mpr ⟨?_, ih hys⟩
        intro b hb
        rcases insertItem_head? x ys with hh | hh
        · rw [hh] at hb
          have hbx : b = x := by simpa using hb.symm
          subst hbx
          rw [cmpItems_antisymm]
          exact neg_nonpos.mpr (not_lt.mp hxy)
        · rw [hh] at hb
          exact hy b hb

/-- Every output of the modelled stable sort satisfies the adjacent-pairs
invariant of the comparator. -/
theorem chain'_sortItems (l : List Item) :
    (sortItems l).Chain' (fun a b => cmpItems a b ≤ 0) := by
  have aux : ∀ (t acc : List Item),
      acc.Chain' (fun a b => cmpItems a b ≤ 0) →
      (t.foldl (fun acc x => insertItem x acc) acc).Chain' (fun a b => cmpItems a b ≤ 0) := by
    intro t
    induction t with
    | nil => intro acc h; exact h
    | cons x xs ih => intro acc h; exact ih _ (chain'_insertItem x acc h)
  exact aux l [] (by simp)

/-- Inserting an element permutes: the result holds the element and the
old list. -/
theorem insertItem_perm (x : Item) (l : List Item) :
    List.Perm (insertItem x l) (x :: l) := by
  induction l with
  | nil => exact List.Perm.refl _
  | cons y ys ih =>
      by_cases h : cmpItems x y < 0
      · simp only [insertItem, if_pos h]
        exact List.Perm.refl _
      · simp only [insertItem, if_neg h]
        exact (ih.cons y).trans (List.Perm.swap x y ys)

/-- The modelled sort returns a permutation of its input. -/
theorem sortItems_perm (l : List Item) : List.Perm (sortItems l) l := by
  have aux : ∀ (t acc : List Item),
      List.Perm (t.foldl (fun acc x => insertItem x acc) acc) (t ++ acc) := by
    intro t
    induction t with
    | nil => intro acc; exact List.Perm.refl _
    | cons x xs ih =>
        intro acc
        exact (ih (insertItem x acc)).trans
          (((insertItem_perm x acc).append_left xs).trans List.perm_middle)
  simpa using aux l []

/-- Along a chain whose relation is transitive on the list's members, the
head is related to every later element. -/
theorem chain'_rel_of_mem :
    ∀ (x : Item) (t : List Item),
      (∀ a ∈ x :: t, ∀ b ∈ x :: t, ∀ c ∈ x :: t,
        cmpItems a b ≤ 0 → cmpItems b c ≤ 0 → cmpItems a c ≤ 0) →
      (x :: t).Chain' (fun a b => cmpItems a b ≤ 0) →
      ∀ y ∈ t, cmpItems x y ≤ 0 := by
  intro x t
  induction t generalizing x with
  | nil =>
      intro _ _ y hy
      cases hy
  | cons z t' ih =>
      intro htr hch y hy
      obtain ⟨hxz, hch'⟩ := List.chain'_cons.mp hch
      rcases List.mem_cons.mp hy with rfl | hy'
      · exact hxz
      · have hzy : cmpItems z y ≤ 0 := by
          refine ih z ?_ hch' y hy'
          intro a ha b hb c hc
          exact htr a (List.mem_cons_of_mem x ha) b (List.mem_cons_of_mem x hb)
            c (List.mem_cons_of_mem x hc)
        exact htr x (List.mem_cons_self x (z :: t')) z
          (List.mem_cons_of_mem x (List.mem_cons_self z t')) y
          (List.mem_cons_of_mem x (List.mem_cons_of_mem z hy')) hxz hzy

/-- A chain whose relation is transitive on the list's members is pairwise
related. -/
theorem pairwise_of_chain'_trans :
    ∀ l : List Item,
      (∀ a ∈ l, ∀ b ∈ l, ∀ c ∈ l,
        cmpItems a b ≤ 0 → cmpItems b c ≤ 0 → cmpItems a c ≤ 0) →
      l.Chain' (fun a b => cmpItems a b ≤ 0) →
      l.Pairwise (fun a b => cmpItems a b ≤ 0) := by
  intro l
  induction l with
  | nil =>
      intro _ _
      exact List.Pairwise.nil
  | cons x t ih =>
      intro htr hch
      refine List.pairwise_cons.mpr ⟨chain'_rel_of_mem x t htr hch, ?_⟩
      refine ih ?_ hch.tail
      intro a ha b hb c hc
      exact htr a (List.mem_cons_of_mem x ha) b (List.mem_cons_of_mem x hb)
        c (List.mem_cons_of_mem x hc)

/-- Two distinct members of a list occur in one order or the other. -/
theorem sublist_pair_of_mem {a b : Item} :
    ∀ {l : List Item}, a ≠ b → a ∈ l → b ∈ l →
      List.Sublist [a, b] l ∨ List.Sublist [b, a] l := by
  intro l
  induction l with
  | nil =>
      intro _ ha
      cases ha
  | cons x t ih =>
      intro hne ha hb
      by_cases hax : a = x
      · subst hax
        have hb' : b ∈ t := by
          rcases List.mem_cons.mp hb with h | h
          · exact absurd h.symm hne
          · exact h
        exact Or.inl ((List.singleton_sublist.mpr hb').cons₂ a)
      · by_cases hbx : b = x
        · subst hbx
          have ha' : a ∈ t := by
            rcases List.mem_cons.mp ha with h | h
            · exact absurd h hax
            · exact h
          exact Or.inr ((List.singleton_sublist.mpr ha').cons₂ b)
        · have ha' : a ∈ t := by
            rcases List.mem_cons.mp ha with h | h
            · exact absurd h hax
            · exact h
          have hb' : b ∈ t := by
            rcases List.mem_cons.mp hb with h | h
            · exact absurd h hbx
            · exact h
          rcases ih hne ha' hb' with h | h
          · exact Or.inl (h.cons x)
          · exact Or.inr (h.cons x)

/-- C3 (amended): on extraction runs where the band comparator is
transitive on the extracted items — so it is a consistent comparison
function and ECMAScript's stability requirement determines the engine's
output, which `sortItems` computes — the claimed law holds for pairs with
distinct coordinates: two distinct output items in the same band with
different horizontal positions satisfy "a precedes b iff a.left < b.left",
and two items 10 or more apart vertically satisfy "a precedes b iff
a.top < b.top".  Ties and comparator-inconsistent runs are excluded; the
counterexample shows both exclusions are necessary. -/
theorem band_order_of_consistent (l : List Item)
    (htrans : ∀ a ∈ l, ∀ b ∈ l, ∀ c ∈ l,
      cmpItems a b ≤ 0 → cmpItems b c ≤ 0 → cmpItems a c ≤ 0)
    (a b : Item) (hne : a ≠ b)
    (ha : a ∈ sortItems l) (hb : b ∈ sortItems l) :
    (abs (a.position.top - b.position.top) < 10 →
      a.position.left ≠ b.position.left →
      (List.Sublist [a, b] (sortItems l) ↔ a.position.left < b.position.left)) ∧
    (¬ abs (a.position.top - b.position.top) < 10 →
      (List.Sublist [a, b] (sortItems l) ↔ a.position.top < b.position.top)) := by
  have hperm := sortItems_perm l
  have htrans' : ∀ x ∈ sortItems l, ∀ y ∈ sortItems l, ∀ z ∈ sortItems l,
      cmpItems x y ≤ 0 → cmpItems y z ≤ 0 → cmpItems x z ≤ 0 := by
    intro x hx y hy z hz
    exact htrans x (hperm.subset hx) y (hperm.subset hy) z (hperm.subset hz)
  have hpw := pairwise_of_chain'_trans (sortItems l) htrans' (chain'_sortItems l)
  have hap : ∀ u v : Item, List.Sublist [u, v] (sortItems l) → cmpItems u v ≤ 0 := by
    intro u v hs
    exact (List.pairwise_cons.mp (hpw.sublist hs)).1 v (List.mem_singleton_self v)
  constructor
  · intro hband hlne
    constructor
    · intro hs
      have h1 := hap a b hs
      rw [cmpItems, if_pos hband] at h1
      exact lt_of_le_of_ne (sub_nonpos.mp h1) hlne
    · intro hlt
      rcases sublist_pair_of_mem hne ha hb with h | h
      · exact h
      · exfalso
        have h1 := hap b a h
        rw [cmpItems, if_pos (by rwa [abs_sub_comm])] at h1
        exact absurd hlt (not_lt.mpr (sub_nonpos.mp h1))
  · intro hband
    constructor
    · intro hs
      have h1 := hap a b hs
      rw [cmpItems, if_neg hband] at h1
      refine lt_of_le_of_ne (sub_nonpos.mp h1) ?_
      intro he
      apply hband
      rw [he]
      simp
    · intro hlt
      rcases sublist_pair_of_mem hne ha hb with h | h
      · exact h
      · exfalso
        have h1 := hap b a h
        have hband' : ¬ abs (b.position.top - a.position.top) < 10 := by
          rw [abs_sub_comm]
          exact hband
        rw [cmpItems, if_neg hband'] at h1
        exact absurd hlt (not_lt.mpr (sub_nonpos.mp h1))

/-- A concrete extraction run on which the band comparator is transitive:
one band row with two items and a far-away third item. -/
def consistentRun : List Item :=
  [Item.paragraph "P1" ⟨0, 5⟩, Item.paragraph "P2" ⟨0, 1⟩, Item.paragraph "P3" ⟨100, 7⟩]

/-- Witness for the amended C3 theorem: on `consistentRun` the comparator
is transitive, and the two same-band items of distinct horizontal position
are ordered by ascending `left`. -/
theorem band_order_of_consistent_witness :
    (∀ a ∈ consistentRun, ∀ b ∈ consistentRun, ∀ c ∈ consistentRun,
      cmpItems a b ≤ 0 → cmpItems b c ≤ 0 → cmpItems a c ≤ 0) ∧
    Item.paragraph "P2" ⟨0, 1⟩ ≠ Item.paragraph "P1" ⟨0, 5⟩ ∧
    Item.paragraph "P2" ⟨0, 1⟩ ∈ sortItems consistentRun ∧
    Item.paragraph "P1" ⟨0, 5⟩ ∈ sortItems consistentRun ∧
    ((abs ((Item.paragraph "P2" ⟨0, 1⟩).position.top -
           (Item.paragraph "P1" ⟨0, 5⟩).position.top) < 10 →
      (Item.paragraph "P2" ⟨0, 1⟩).position.left ≠
        (Item.paragraph "P1" ⟨0, 5⟩).position.left →
      (List.Sublist [Item.paragraph "P2" ⟨0, 1⟩, Item.paragraph "P1" ⟨0, 5⟩]
          (sortItems consistentRun) ↔
        (Item.paragraph "P2" ⟨0, 1⟩).position.left <
          (Item.paragraph "P1" ⟨0, 5⟩).position.left)) ∧
     (¬ abs ((Item.paragraph "P2" ⟨0, 1⟩).position.top -
             (Item.paragraph "P1" ⟨0, 5⟩).position.top) < 10 →
      (List.Sublist [Item.paragraph "P2" ⟨0, 1⟩, Item.paragraph "P1" ⟨0, 5⟩]
          (sortItems consistentRun) ↔
        (Item.paragraph "P2" ⟨0, 1⟩).position.top <
          (Item.paragraph "P1" ⟨0, 5⟩).position.top))) :=
  ⟨by decide, by decide, by decide, by decide,
   band_order_of_consistent consistentRun (by decide)
     (Item.paragraph "P2" ⟨0, 1⟩) (Item.paragraph "P1" ⟨0, 5⟩)
     (by decide) (by decide) (by decide)⟩

/-- Two distinct items sharing one position: the comparator ties them in
both directions. -/
def tieFirst : Item := Item.paragraph "First" ⟨40, 7⟩

/-- Second item of the tied pair. -/
def tieSecond : Item := Item.paragraph "Second" ⟨40, 7⟩

/-- Band-boundary item A of the non-transitivity triple. -/
def bandItemA : Item := Item.paragraph "A" ⟨0, 100⟩

/-- Band-boundary item B of the non-transitivity triple. -/
def bandItemB : Item := Item.paragraph "B" ⟨9, 50⟩

/-- Band-boundary item C of the non-transitivity triple. -/
def bandItemC : Item := Item.paragraph "C" ⟨18, 0⟩

/-- C3 counterexample.  First part: two distinct items at the same position
compare as zero in both directions, so the comparator is consistent on
this two-element input and ECMAScript's stability requirement forces every
conforming engine to return the pair unchanged (a tied adjacent pair is an
ascending run, which V8's TimSort detects and leaves as is) — exactly what
`sortItems` computes.  In that mandated output the first item precedes the
second inside a band while `left <` holds in neither direction, so
"a precedes b iff a.left < b.left" is false whichever way the tie is kept.
Second part: the comparator is not transitive (A before C and C before B
by comparison, yet A after B), so on runs containing such triples it is
not a consistent comparison function and ECMAScript leaves the whole order
implementation-defined — no pairwise ordering law can be claimed there. -/
theorem band_order_counterexample :
    (cmpItems tieFirst tieSecond = 0 ∧
     cmpItems tieSecond tieFirst = 0 ∧
     tieFirst ≠ tieSecond ∧
     sortItems [tieFirst, tieSecond] = [tieFirst, tieSecond] ∧
     List.Sublist [tieFirst, tieSecond] (sortItems [tieFirst, tieSecond]) ∧
     abs (tieFirst.position.top - tieSecond.position.top) < 10 ∧
     ¬ tieFirst.position.left < tieSecond.position.left ∧
     ¬ tieSecond.position.left < tieFirst.position.left) ∧
    (cmpItems bandItemA bandItemC < 0 ∧
     cmpItems bandItemC bandItemB < 0 ∧
     0 < cmpItems bandItemA bandItemB) := by decide

/-- C2: a navigation response with HTTP status 404 does *not* surface as a
404 — the `HTTPException(status_code=404)` raised at line 236 is caught by
the stage's own `except Exception` handler (line 240), which re-raises it
as a 500 whose detail wraps the stringified original.  The result is the
same for every extraction and screenshot outcome, showing that neither
extraction nor capture is reached. -/
theorem nav_error_status_hidden_as_500 (ev : Except String (List Item × Metadata))
    (sf sv : Except String (List Nat)) (b : Bool) :
    scrape_page "https://example.com/" 30 3 b
      ⟨Except.ok (), Except.ok (), Except.ok (some ⟨404, "Not Found"⟩), true, sf, sv, ev, 5, 100⟩ =
      Except.error ⟨500, "Navigation failed: 404: HTTP 404: Not Found"⟩ := rfl

/-- C8: a timeout outside `[5, 120]` is rejected with a 400 validation
error before any browser interaction — the response is the same error for
every world, i.e. independent of everything the browser would do. -/
theorem timeout_validation_rejects (url : String) (timeout wait_time : Int)
    (fs : Bool) (w w' : World) (h : timeout < 5 ∨ timeout > 120) :
    (∃ d, scrape_page url timeout wait_time fs w = Except.error ⟨400, d⟩) ∧
    scrape_page url timeout wait_time fs w = scrape_page url timeout wait_time fs w' := by
  unfold scrape_page
  by_cases h1 : url = ""
  · rw [if_pos h1, if_pos h1]
    exact ⟨⟨_, rfl⟩, rfl⟩
  · rw [if_neg h1, if_neg h1]
    by_cases h2 : is_valid_url url = false
    · rw [if_pos h2, if_pos h2]
      exact ⟨⟨_, rfl⟩, rfl⟩
    · rw [if_neg h2, if_neg h2, if_pos h, if_pos h]
      exact ⟨⟨_, rfl⟩, rfl⟩

/-- A world in which every browser call succeeds. -/
def happyWorld : World :=
  ⟨Except.ok (), Except.ok (), Except.ok (some ⟨200, "OK"⟩), true,
   Except.ok [1, 2, 3], Except.ok [4, 5, 6], Except.ok ([], emptyMetadata), 5, 100⟩

/-- A world in which navigation times out. -/
def timeoutWorld : World :=
  ⟨Except.ok (), Except.ok (), Except.error PyExc.timeout, true,
   Except.ok [1, 2, 3], Except.ok [4, 5, 6], Except.ok ([], emptyMetadata), 5, 100⟩

/-- Witness for the timeout-validation theorem: `timeout=3` is rejected
with a 400 whatever the browser would have done. -/
theorem timeout_validation_rejects_witness :
    ((3 : Int) < 5 ∨ (3 : Int) > 120) ∧
    ((∃ d, scrape_page "https://example.com/" 3 3 true happyWorld = Except.error ⟨400, d⟩) ∧
     scrape_page "https://example.com/" 3 3 true happyWorld =
       scrape_page "https://example.com/" 3 3 true timeoutWorld) :=
  ⟨Or.inl (by decide),
   timeout_validation_rejects "https://example.com/" 3 3 true happyWorld timeoutWorld
     (Or.inl (by decide))⟩

/-- The world reached through `/markdown`: navigation succeeds, the
full-page screenshot call is never made (it would fail), the viewport
screenshot call returns the bytes `[1, 2, 3]`, and the page is empty. -/
def markdownWorld : World :=
  ⟨Except.ok (), Except.ok (), Except.ok (some ⟨200, "OK"⟩), true,
   Except.error "full-page screenshot not requested", Except.ok [1, 2, 3],
   Except.ok ([], emptyMetadata), 5, 100⟩

/-- C9: `/markdown` delegates to `scrape_page` with `full_screenshot=False`
and passes the markdown and processing time through — but the delegated
call still performs a (viewport) screenshot: its result carries the base64
encoding `"AQID"` of the viewport capture bytes, not an empty string, even
though the call site's comment says no screenshot is taken for
markdown-only requests. -/
theorem markdown_endpoint_still_screenshots :
    scrape_page "https://example.com/" 30 3 false markdownWorld =
      Except.ok ⟨true, "https://example.com/", 5, emptyMetadata, mkStats [], [], "---\n",
                 [], [], [], "AQID", 100⟩ ∧
    scrape_as_markdown "https://example.com/" 30 true markdownWorld =
      Except.ok ⟨true, "https://example.com/", "---\n", 1, 5⟩ ∧
    ("AQID" : String) ≠ "" :=
  ⟨rfl, rfl, by decide⟩

/-- C10: the renderer's line list is always the metadata header followed by
the unconditional `---` rule and then the body, the output is never the
empty string, and for empty input it is exactly the rule line. -/
theorem markdown_rule_always_present :
    (∀ (c : List Item) (m : Metadata),
      markdownLines c m = metaLines m ++ "---\n" :: (c.flatMap itemLines ++ linksSection c) ∧
      generate_markdown c m ≠ "") ∧
    generate_markdown [] emptyMetadata = "---\n" := by
  refine ⟨fun c m => ⟨by simp [markdownLines], fun hempty => ?_⟩, rfl⟩
  have hmem : "---\n" ∈ markdownLines c m := by simp [markdownLines]
  have hle := length_le_pyJoin "\n" "---\n" (markdownLines c m) hmem
  rw [show pyJoin "\n" (markdownLines c m) = generate_markdown c m from rfl, hempty] at hle
  exact absurd hle (by decide)

end Scraper
